import Mathlib

/-
  Shallow embedding of the ErrorWatch client-side telemetry agent
  (breadcrumb trail, batch accumulator, persistent delivery queue,
  redaction filter, session-recorder adapter, capture pipeline).

  JavaScript machine aspects are modelled as follows:
  * the single mutable `ErrorWatch` class instance becomes an explicit
    `State` record threaded through every operation;
  * user callbacks (`beforeSend`, analytics hooks) that may throw are
    modelled as `Except Unit`-valued functions; a `try/catch` block in
    the source becomes a `match` on the `Except` value;
  * `localStorage` persistence is the `storage` field mirroring the
    in-memory `errorQueue` at each `saveQueue` call;
  * `JSON.stringify` of the recording frame buffer is an injective
    encoding, elided: the attached recording payload is the frame list
    itself (`Option (List Frame)`);
  * `DOMParser.parseFromString(_, text/html)` is error-correcting and
    never throws; a DOM snapshot string is represented by `HtmlString`:
    either the canonical serialization of a whole parsed document
    (`wellFormed`) or an unparsed bare fragment (`malformedFragment`)
    that the lenient parser wraps into a fresh document;
  * `querySelectorAll` is modelled for tag-name selectors (the only
    observable behaviour the claims need): a selector matches every
    element whose tag equals it.
-/

namespace ErrorWatch

/-- Milliseconds before a non-full batch is flushed (source: BATCH_INTERVAL). -/
def BATCH_INTERVAL : Nat := 5000

/-- Maximum batch size / drain chunk size (source: BATCH_SIZE). -/
def BATCH_SIZE : Nat := 10

/-- Breadcrumb trail capacity (source: BREADCRUMB_LIMIT). -/
def BREADCRUMB_LIMIT : Nat := 30

/-- The embedding models the in-browser execution environment
(source: `isBrowser` check on window/document). -/
def isBrowser : Bool := true

/-- A DOM node: a text node, or an element with a tag name, an
input-value slot and children.  stands for the document trees
produced by the browser parser. -/
inductive Dom where
  | text : String → Dom
  | elem : String → String → List Dom → Dom

/-- A DOM snapshot string, identified up to the browser parse/serialize
round trip: either the canonical serialization of a document, or a bare
malformed fragment that the lenient text/html parser error-corrects. -/
inductive HtmlString where
  | wellFormed : Dom → HtmlString
  | malformedFragment : String → HtmlString

/-- The document produced by the lenient text/html parser when given a
bare fragment: wrapped in html/head/body. -/
def htmlWrap (bodyContent : List Dom) : Dom :=
  .elem "html" "" [.elem "head" "" [], .elem "body" "" bodyContent]

/-- `DOMParser.parseFromString(s, text/html)`: total, error-correcting. -/
def parseHtml : HtmlString → Dom
  | .wellFormed d => d
  | .malformedFragment raw => htmlWrap [.text raw]

/-- Tags whose matched elements have their `value` replaced instead of
their text content (source: `HTMLInputElement`/`HTMLTextAreaElement`). -/
def isInputLike (tag : String) : Bool :=
  tag == "input" || tag == "textarea"

mutual

/-- Effect of the `doc.querySelectorAll(selector).forEach(...)` loop of
`redactDom` for one selector: every element whose tag matches gets its
value (input-like) or its entire text content (otherwise; setting
`textContent` replaces all children by one text node) redacted. -/
def redactSel (sel : String) (d : Dom) : Dom :=
  match d with
  | .text s => .text s
  | .elem tag v children =>
      if tag == sel then
        if isInputLike tag then
          .elem tag "[REDACTED]" (redactSelList sel children)
        else
          .elem tag v [.text "[REDACTED]"]
      else
        .elem tag v (redactSelList sel children)
termination_by sizeOf d

/-- `redactSel` mapped over a child list. -/
def redactSelList (sel : String) (ds : List Dom) : List Dom :=
  match ds with
  | [] => []
  | d :: rest => redactSel sel d :: redactSelList sel rest
termination_by sizeOf ds

end

mutual

/-- Whether some element of the document has the given tag. -/
def hasTag (sel : String) (d : Dom) : Bool :=
  match d with
  | .text _ => false
  | .elem tag _ children => tag == sel || hasTagList sel children
termination_by sizeOf d

/-- `hasTag` over a child list. -/
def hasTagList (sel : String) (ds : List Dom) : Bool :=
  match ds with
  | [] => false
  | d :: rest => hasTag sel d || hasTagList sel rest
termination_by sizeOf ds

end

/-- A breadcrumb (source: interface Breadcrumb). -/
structure Breadcrumb where
  type : String
  message : String
  data : Option String := none
  timestamp : Nat
deriving DecidableEq

/-- A metadata value (source: Record<string, any> value). -/
inductive MetaVal where
  | str : String → MetaVal
  | num : Nat → MetaVal
  | undef : MetaVal
  | crumbs : List Breadcrumb → MetaVal
  | userInfo : String → Option String → Option String → MetaVal
deriving DecidableEq

/-- A JS object used as metadata: ordered key/value pairs, later
assignments overriding in place (object spread semantics). -/
abbrev Metadata := List (String × MetaVal)

/-- `mdSet m k v`: JS object update `{...m, k: v}` — overrides the key in
place when present (object keys are unique, so replacing the first
occurrence is the spread semantics), appends otherwise. -/
def mdSet : Metadata → String → MetaVal → Metadata
  | [], k, v => [(k, v)]
  | p :: rest, k, v =>
      if p.1 == k then (k, v) :: rest else p :: mdSet rest k v

/-- Look a key up in a metadata object. -/
def mdLookup (m : Metadata) (k : String) : Option MetaVal :=
  (m.find? (fun p => p.1 == k)).map (fun p => p.2)

/-- One recording frame emitted by the external recorder (rrweb event):
an adapter timestamp plus its DOM-shaped content. -/
structure Frame where
  timestamp : Nat
  data : HtmlString

/-- Event severity (source: 'error' | 'warning' | 'info'). -/
inductive Severity where
  | error | warning | info
deriving DecidableEq

/-- A captured event (source: interface ErrorData / ErrorEvent; the
`type` field is the extra field of ErrorEvent added before `beforeSend`;
`screenRecording` holds the serialized frame buffer, modelled as the
frame list itself). -/
structure ErrorData where
  message : String
  stack : Option String := none
  url : String := ""
  line : Option Nat := none
  column : Option Nat := none
  userAgent : String := ""
  timestamp : Nat := 0
  severity : Severity := .error
  metadata : Metadata := []
  screenRecording : Option (List Frame) := none
  type : Option String := none

/-- Agent configuration after the constructor filled the defaults
(source: Required<ErrorWatchConfig>, behaviour-relevant fields).
`beforeSend` and the analytics hook are user callbacks that may throw,
hence `Except Unit`-valued. -/
structure Config where
  enableScreenRecording : Bool := true
  maxRecordingDuration : Nat := 30000
  captureConsole : Bool := true
  redactSelectors : List String := []
  allowPII : Bool := false
  beforeSend : ErrorData → Except Unit (Option ErrorData) := fun e => .ok (some e)
  onErrorCaptured : Option (ErrorData → Except Unit Unit) := none

/-- The mutable instance state of the ErrorWatch class.  `storage`
mirrors the localStorage copy of the queue; `recorderActive` tells
whether the external recorder subscription is live; `hasStopHandle`
whether `this.stopRecording` is set; the three flags at the end record
which global interception hooks this instance has installed. -/
structure State where
  isRecording : Bool := false
  recordingEvents : List Frame := []
  recorderActive : Bool := false
  hasStopHandle : Bool := false
  errorQueue : List ErrorData := []
  storage : List ErrorData := []
  batch : List ErrorData := []
  batchTimer : Option Nat := none
  breadcrumbs : List Breadcrumb := []
  sessionId : String := ""
  userId : Option String := none
  sessionStartTime : Nat := 0
  errorHandlersAttached : Bool := false
  consolePatched : Bool := false
  logPatched : Bool := false

/-- `redactDom` (source lines 318-331): early-returns the input string
when outside a browser or `allowPII` is set (with a `Required` config the
selector array is always defined, so its truthiness test never fires);
otherwise parses the snapshot, applies every selector, and re-serializes
the resulting document. -/
def redactDom (cfg : Config) (domString : HtmlString) : HtmlString :=
  if !isBrowser || cfg.allowPII then domString
  else
    let doc := parseHtml domString
    let doc := cfg.redactSelectors.foldl (fun d sel => redactSel sel d) doc
    .wellFormed doc

/-- `addBreadcrumb` (source lines 268-273): push, then drop the oldest
entry when the limit is exceeded. -/
def addBreadcrumb (bs : List Breadcrumb) (b : Breadcrumb) : List Breadcrumb :=
  if BREADCRUMB_LIMIT < (bs ++ [b]).length then (bs ++ [b]).tail
  else bs ++ [b]

/-- `startScreenRecording` (source lines 235-259): no-op unless in a
browser and not already recording; otherwise clears the frame buffer,
marks recording, and subscribes to the external recorder. -/
def startScreenRecording (s : State) : State :=
  if !isBrowser || s.isRecording then s
  else
    { s with recordingEvents := [], isRecording := true,
             recorderActive := true, hasStopHandle := true }

/-- `restartRecording` (source lines 261-266): call the stop handle if
present (unsubscribing the recorder), then call `startScreenRecording`. -/
def restartRecording (s : State) : State :=
  let s := if s.hasStopHandle then { s with recorderActive := false } else s
  startScreenRecording s

/-- The `emit` callback registered with the external recorder (source
lines 240-253): push the frame, then restart when the elapsed time since
the first buffered frame exceeds `maxRecordingDuration`.  The callback
only runs while the subscription is live. -/
def emitFrame (cfg : Config) (now : Nat) (f : Frame) (s : State) : State :=
  if !s.recorderActive then s
  else
    let s := { s with recordingEvents := s.recordingEvents ++ [f] }
    match s.recordingEvents.head? with
    | some firstEvent =>
        if cfg.maxRecordingDuration < now - firstEvent.timestamp then
          restartRecording s
        else s
    | none => s

/-- `queueError` (source lines 424-427): append to the persistent queue
and persist. -/
def queueError (s : State) (errorData : ErrorData) : State :=
  let q := s.errorQueue ++ [errorData]
  { s with errorQueue := q, storage := q }

/-- `flushBatch` (source lines 376-391): snapshot the batch, clear it and
the timer, attempt one transport call for the snapshot; on failure every
snapshot event is individually queued (and persisted) for retry and a
diagnostic is emitted.  Returns (new state, batch handed to transport,
diagnostics). -/
def flushBatch (sendOk : List ErrorData → Bool) (s : State) :
    State × Option (List ErrorData) × List String :=
  if s.batch.isEmpty then (s, none, [])
  else
    let batchToSend := s.batch
    let s := { s with batch := [], batchTimer := none }
    if sendOk batchToSend then (s, some batchToSend, [])
    else
      ({ s with errorQueue := s.errorQueue ++ batchToSend,
                storage := s.errorQueue ++ batchToSend },
       some batchToSend,
       ["ErrorWatch: Failed to send batch, queued for retry"])

/-- `addToBatch` (source lines 367-374): push; flush immediately when the
size threshold is reached, otherwise start the interval timer when none
is pending. -/
def addToBatch (sendOk : List ErrorData → Bool) (now : Nat) (s : State)
    (errorData : ErrorData) : State × Option (List ErrorData) × List String :=
  let s := { s with batch := s.batch ++ [errorData] }
  if BATCH_SIZE ≤ s.batch.length then flushBatch sendOk s
  else if s.batchTimer.isNone then
    ({ s with batchTimer := some (now + BATCH_INTERVAL) }, none, [])
  else (s, none, [])

/-- The `setTimeout` callback of `addToBatch` firing at its deadline:
runs `flushBatch`.  (In a run it only fires while the timer is pending.) -/
def fireBatchTimer (sendOk : List ErrorData → Bool) (s : State) :
    State × Option (List ErrorData) × List String :=
  flushBatch sendOk s

/-- `flushQueue` (source lines 429-449), drain loop with no interleaved
enqueues: while the queue is non-empty, splice off up to `BATCH_SIZE`
events, attempt one transport call; on success persist the shortened
queue and continue, on failure restore the spliced events to the front,
persist, and stop.  Generic in the event type (the loop never inspects
events).  Returns (in-memory queue, persisted storage). -/
def flushQueue {α : Type} (send : List α → Bool) (q st : List α) :
    List α × List α :=
  if q.isEmpty then (q, st)
  else
    let batch := q.take BATCH_SIZE
    let rest := q.drop BATCH_SIZE
    if send batch then flushQueue send rest rest
    else (batch ++ rest, batch ++ rest)
termination_by q.length
decreasing_by
  cases q with
  | nil => simp [List.isEmpty] at *
  | cons a t =>
      simp [List.length_drop, BATCH_SIZE]
      omega

/-- One iteration of the drain loop in which `arrivals` were enqueued by
concurrent captures during the in-flight transport call (the loop
re-reads the live queue, so on failure the spliced batch is concatenated
in front of both the untouched remainder and the new arrivals). -/
def drainStepArrivals {α : Type} (sendOk : Bool) (q arrivals : List α) :
    List α :=
  let batch := q.take BATCH_SIZE
  let rest := q.drop BATCH_SIZE ++ arrivals
  if sendOk then rest else batch ++ rest

/-- The metadata merge of `handleError` (source lines 350-356):
`{...errorData.metadata, breadcrumbs: slice, sessionId, userId,
sessionStart}` with the trail snapshot copied by value. -/
def mergeCaptureMetadata (s : State) (m : Metadata) : Metadata :=
  mdSet (mdSet (mdSet (mdSet m "breadcrumbs" (.crumbs s.breadcrumbs))
    "sessionId" (.str s.sessionId))
    "userId" (match s.userId with | some u => .str u | none => .undef))
    "sessionStart" (.num s.sessionStartTime)

/-- The recording-attachment step of `handleError` (source lines
343-348): when recording is enabled and frames exist, set the raw
serialized frame buffer on the event and run the diagnostic
`console.log` (which, through the patched log, appends a breadcrumb).
Returns (state, mutated event, diagnostics). -/
def attachStep (cfg : Config) (now : Nat) (s : State) (ev : ErrorData) :
    State × ErrorData × List String :=
  if cfg.enableScreenRecording && !s.recordingEvents.isEmpty then
    let ev := { ev with screenRecording := some s.recordingEvents }
    let s :=
      if s.logPatched then
        { s with breadcrumbs :=
            addBreadcrumb s.breadcrumbs (Breadcrumb.mk "console" "log" (some "ErrorWatch screenRecording") now) }
      else s
    (s, ev, ["ErrorWatch screenRecording"])
  else (s, ev, [])

/-- The event as it stands when handed to the analytics hook and the
batch accumulator: the original `errorData` after recording attachment
and the capture metadata merge. -/
def capturedEvent (cfg : Config) (now : Nat) (s : State) (ev : ErrorData) :
    ErrorData :=
  let r := attachStep cfg now s ev
  { r.2.1 with metadata := mergeCaptureMetadata r.1 r.2.1.metadata }

/-- The `try` block of `handleError` (source lines 333-365): apply
`beforeSend` to the event extended with `type: 'error'`; return silently
on a null result; otherwise continue with the ORIGINAL `errorData`
object (the source never reads `processedError` again): attach the raw
frame buffer when recording is enabled and frames exist, merge the
capture metadata, fire the analytics hook, and hand the event to the
batch accumulator.  A throw inside the block (from `beforeSend` or the
hook) aborts with the state and the in-place-mutated event as they stood
at the throw. -/
def handleErrorE (cfg : Config) (sendOk : List ErrorData → Bool) (now : Nat)
    (s : State) (errorData : ErrorData) :
    Except (State × ErrorData) (State × List String) :=
  match cfg.beforeSend { errorData with type := some "error" } with
  | .error _ => .error (s, errorData)
  | .ok none => .ok (s, [])
  | .ok (some _) =>
      let r := attachStep cfg now s errorData
      let s := r.1
      let diags := r.2.2
      let errorData := { r.2.1 with metadata := mergeCaptureMetadata s r.2.1.metadata }
      match cfg.onErrorCaptured with
      | some hook =>
          match hook errorData with
          | .error _ => .error (s, errorData)
          | .ok _ =>
              let r2 := addToBatch sendOk now s errorData
              .ok (r2.1, diags ++ r2.2.2)
      | none =>
          let r2 := addToBatch sendOk now s errorData
          .ok (r2.1, diags ++ r2.2.2)

/-- `handleError` (source lines 333-365): the `try` block with its
`catch` — on a throw the event is shunted straight into the persistent
delivery queue (`queueError`, bypassing the batch) and a diagnostic is
emitted; the function itself never propagates an exception. -/
def handleError (cfg : Config) (sendOk : List ErrorData → Bool) (now : Nat)
    (s : State) (errorData : ErrorData) : State × List String :=
  match handleErrorE cfg sendOk now s errorData with
  | .ok r => r
  | .error e =>
      (queueError e.1 e.2, ["ErrorWatch: Failed to queue error for batch"])

/-- `setUser` (source lines 526-542): store the user id on the instance
and wrap `beforeSend` so that the processed event carries the user
object in its metadata. -/
def setUser (id : String) (email name : Option String) (s : State)
    (cfg : Config) : State × Config :=
  ({ s with userId := some id },
   { cfg with beforeSend := fun e =>
      match cfg.beforeSend e with
      | .error u => .error u
      | .ok none => .ok none
      | .ok (some p) =>
          .ok (some { p with metadata := mdSet p.metadata "user" (.userInfo id email name) }) })

/-- `setContext` (source lines 544-558): wrap `beforeSend` so that the
processed event carries the given key/value in its metadata. -/
def setContext (k : String) (v : MetaVal) (cfg : Config) : Config :=
  { cfg with beforeSend := fun e =>
      match cfg.beforeSend e with
      | .error u => .error u
      | .ok none => .ok none
      | .ok (some p) => .ok (some { p with metadata := mdSet p.metadata k v }) }

/-- `setupErrorHandlers` (source lines 164-196): installs the window
'error' / 'unhandledrejection' listeners (modelled by a flag). -/
def setupErrorHandlers (s : State) : State :=
  if isBrowser then { s with errorHandlersAttached := true } else s

/-- `setupConsoleCapture` (source lines 198-233): patches console.error
and console.warn (modelled by a flag). -/
def setupConsoleCapture (s : State) : State :=
  if isBrowser then { s with consolePatched := true } else s

/-- `setupBreadcrumbs` (source lines 275-316): installs the breadcrumb
sources, patching console.log (modelled by a flag). -/
def setupBreadcrumbs (s : State) : State :=
  if isBrowser then { s with logPatched := true } else s

/-- `init` (source lines 146-162): install the interception hooks, start
recording when enabled, patch the console when enabled, install the
breadcrumb sources.  (The startup queue drain is `flushQueue`.) -/
def init (cfg : Config) (s : State) : State :=
  let s := setupErrorHandlers s
  let s := if cfg.enableScreenRecording && isBrowser then startScreenRecording s else s
  let s := if cfg.captureConsole then setupConsoleCapture s else s
  setupBreadcrumbs s

/-- The window 'error' listener body (source lines 168-179): builds an
event from the browser signal and runs `handleError`.  Runs only while
the listener is attached. -/
def dispatchWindowError (cfg : Config) (sendOk : List ErrorData → Bool)
    (now : Nat) (s : State) (msg : String) (stack : Option String)
    (url : String) (line column : Option Nat) (ua : String) :
    State × List String :=
  if s.errorHandlersAttached then
    handleError cfg sendOk now s
      { message := msg, stack := stack, url := url, line := line,
        column := column, userAgent := ua, timestamp := now,
        severity := .error }
  else (s, [])

/-- The patched console.error body (source lines 204-217): captures the
joined arguments as an error-severity event.  Runs only while the patch
is installed. -/
def dispatchConsoleError (cfg : Config) (sendOk : List ErrorData → Bool)
    (now : Nat) (s : State) (args : String) (url ua : String) :
    State × List String :=
  if s.consolePatched then
    handleError cfg sendOk now s
      { message := args, url := url, userAgent := ua, timestamp := now,
        severity := .error,
        metadata := [("type", .str "console.error")] }
  else (s, [])

/-- `destroy` (source lines 560-571): stop the recorder via its handle,
reset the recording state, clear the frame buffer, cancel the pending
batch timer, and flush the pending batch.  Nothing else is undone. -/
def destroy (sendOk : List ErrorData → Bool) (s : State) : State :=
  let s := if s.hasStopHandle then { s with recorderActive := false } else s
  let s := { s with isRecording := false, recordingEvents := [],
                    batchTimer := none }
  (flushBatch sendOk s).1

/-- An externally observable batch-accumulator action: an `add(event)`
call at a time, or the pending interval timer firing at a time. -/
inductive BatchAct where
  | add : Nat → ErrorData → BatchAct
  | fire : Nat → BatchAct

/-- Run a sequence of batch-accumulator actions, collecting every batch
handed to transport.  A `fire` only has an effect when a timer with that
deadline is pending (a cleared timer never fires). -/
def runBatch (sendOk : List ErrorData → Bool) :
    State → List BatchAct → State × List (List ErrorData)
  | s, [] => (s, [])
  | s, .add t e :: rest =>
      let r := addToBatch sendOk t s e
      let r2 := runBatch sendOk r.1 rest
      (r2.1, r.2.1.toList ++ r2.2)
  | s, .fire t :: rest =>
      if s.batchTimer = some t then
        let r := fireBatchTimer sendOk s
        let r2 := runBatch sendOk r.1 rest
        (r2.1, r.2.1.toList ++ r2.2)
      else runBatch sendOk s rest

/-- The events added by a sequence of batch-accumulator actions. -/
def addsOf : List BatchAct → List ErrorData
  | [] => []
  | .add _ e :: rest => e :: addsOf rest
  | .fire _ :: rest => addsOf rest

/-- Modelled from the spec: the attachment step the specification
describes for section 4.4 step 3 — recording frames containing DOM
content are passed through the Redaction Filter before being serialized
and attached (the source never performs this call; this definition
exists to compare the source behaviour against). -/
def attachRecordingSpec (cfg : Config) (frames : List Frame) : List Frame :=
  frames.map (fun f => { f with data := redactDom cfg f.data })

/-- A configuration with screen recording disabled and every other
option at its constructor default. -/
def cfgNoRec : Config := { enableScreenRecording := false }

/-- The default configuration after `setContext("ctx", "v")`. -/
def cfgCtx : Config := setContext "ctx" (.str "v") {}

/-- A configuration whose `beforeSend` discards every event. -/
def cfgNull : Config := { beforeSend := fun _ => .ok none }

/-- A fully initialised instance state with an empty trail and batch. -/
def sInit : State :=
  { sessionId := "sid", sessionStartTime := 7, logPatched := true,
    consolePatched := true, errorHandlersAttached := true }

/-- A plain captured event used as concrete input. -/
def evSample : ErrorData := { message := "boom", timestamp := 3 }

/-- A first recording frame, emitted at adapter time 0. -/
def frameA : Frame := ⟨0, .malformedFragment "a"⟩

/-- A second recording frame, emitted at adapter time 40000. -/
def frameB : Frame := ⟨40000, .malformedFragment "b"⟩

/-- State after `startScreenRecording` on a fresh instance and two
emitted frames, the second arriving 40000 ms after the first — past the
default 30000 ms `maxRecordingDuration`. -/
def sRecOverrun : State :=
  emitFrame {} 40000 frameB (emitFrame {} 100 frameA (startScreenRecording {}))

/-- Redaction config: redact `input` elements, PII not allowed. -/
def cfgInput : Config := { redactSelectors := ["input"], allowPII := false }

/-- Default-config redaction state: no selectors, PII not allowed. -/
def cfgEmptySel : Config := { redactSelectors := [], allowPII := false }

/-- A recording frame whose DOM content holds an input field value. -/
def frameSecret : Frame :=
  ⟨0, .wellFormed (.elem "html" "" [.elem "body" "" [.elem "input" "secret" []]])⟩

/-- An instance state holding one DOM-shaped recording frame. -/
def sWithFrame : State := { sInit with recordingEvents := [frameSecret] }

/-- A configuration whose analytics hook always throws. -/
def cfgThrow : Config := { onErrorCaptured := some (fun _ => .error ()) }

/-- A drain in which every transport call succeeds empties the queue. -/
theorem flushQueue_all_success {α : Type} (q st : List α) :
    (flushQueue (fun _ => true) q st).1 = [] := by
  generalize hn : q.length = n
  induction n using Nat.strong_induction_on generalizing q st with
  | _ n ih =>
    rw [flushQueue]
    by_cases hq : q.isEmpty
    · simp [List.isEmpty_iff] at hq
      simp [hq]
    · simp only [hq, if_false, Bool.false_eq_true]
      simp only [if_true]
      apply ih ((q.drop BATCH_SIZE).length) ?_ _ _ rfl
      have hpos : 0 < q.length := by
        cases q with
        | nil => simp [List.isEmpty] at hq
        | cons a t => simp
      simp only [List.length_drop, BATCH_SIZE]
      omega

/-- C1: the queue drain repeatedly takes up to 10 events in insertion
order; when the first transport attempt fails, the spliced batch is
restored to the front, the queue is persisted and draining stops, so the
queue (memory and storage) equals its prior contents — no reordering,
duplication or loss; events enqueued during the in-flight attempt stay
behind the restored batch. -/
theorem flushQueue_first_failure_preserves_queue {α : Type}
    (send : List α → Bool) (q st arrivals : List α)
    (hfail : send (q.take BATCH_SIZE) = false) (hq : q ≠ []) :
    flushQueue send q st = (q, q) ∧
    drainStepArrivals false q arrivals = q ++ arrivals := by
  constructor
  · rw [flushQueue]
    simp [List.isEmpty_iff, hq, hfail]
  · simp [drainStepArrivals, ← List.append_assoc]

/-- Witness for C1 at a concrete queue and failing transport. -/
theorem flushQueue_first_failure_witness :
    flushQueue (fun _ : List Nat => false) [1, 2, 3] [] = ([1, 2, 3], [1, 2, 3]) ∧
    drainStepArrivals false [1, 2, 3] [9] = [1, 2, 3, 9] := by
  have h := flushQueue_first_failure_preserves_queue
    (fun _ : List Nat => false) [1, 2, 3] [] [9] rfl (by simp)
  exact ⟨h.1, h.2⟩

/-- C7: when transport fails for a flushed batch of K events, exactly the
K batch events are appended (individually) to the persistent queue and
its storage mirror, the in-memory batch is left empty by the atomic
snapshot, and a subsequent drain whose transport succeeds empties the
queue. -/
theorem flushBatch_failure_queues_batch (sendOk : List ErrorData → Bool)
    (s : State) (st : List ErrorData)
    (hfail : sendOk s.batch = false) (hb : s.batch ≠ []) :
    (flushBatch sendOk s).1.errorQueue = s.errorQueue ++ s.batch ∧
    (flushBatch sendOk s).1.errorQueue.length
      = s.errorQueue.length + s.batch.length ∧
    (flushBatch sendOk s).1.batch = [] ∧
    (flushBatch sendOk s).1.storage = s.errorQueue ++ s.batch ∧
    (flushQueue (fun _ => true) (flushBatch sendOk s).1.errorQueue st).1 = [] := by
  have hne : s.batch.isEmpty = false := by
    simp [List.isEmpty_iff, hb]
  refine ⟨?_, ?_, ?_, ?_, flushQueue_all_success _ _⟩ <;>
    simp [flushBatch, hne, hfail]

/-- Witness for C7 at a concrete state with a two-event batch. -/
theorem flushBatch_failure_witness :
    (flushBatch (fun _ => false) { sInit with batch := [evSample, evSample] }).1.errorQueue
      = [evSample, evSample] ∧
    (flushBatch (fun _ => false) { sInit with batch := [evSample, evSample] }).1.batch = [] := by
  have h := flushBatch_failure_queues_batch (fun _ => false)
    { sInit with batch := [evSample, evSample] } [] rfl (by simp)
  refine ⟨?_, h.2.2.1⟩
  have h1 := h.1
  simpa [sInit] using h1

/-- A flush hands the whole pending batch to transport and leaves the
batch empty: the flushed snapshot plus the remaining batch is exactly
the prior batch. -/
theorem flushBatch_conserves (sendOk : List ErrorData → Bool) (s : State) :
    ((flushBatch sendOk s).2.1.toList.flatten) ++ (flushBatch sendOk s).1.batch
      = s.batch := by
  by_cases h : s.batch.isEmpty
  · simp [List.isEmpty_iff] at h
    simp [flushBatch, h]
  · simp only [flushBatch, h, Bool.false_eq_true, if_false]
    by_cases hs : sendOk s.batch <;> simp [hs]

/-- An add hands at most one batch to transport, and flushed-plus-pending
equals prior-batch-plus-new-event. -/
theorem addToBatch_conserves (sendOk : List ErrorData → Bool) (now : Nat)
    (s : State) (e : ErrorData) :
    ((addToBatch sendOk now s e).2.1.toList.flatten)
        ++ (addToBatch sendOk now s e).1.batch
      = s.batch ++ [e] := by
  simp only [addToBatch]
  by_cases h : BATCH_SIZE ≤ s.batch.length + 1
  · simpa only [List.length_append, List.length_singleton, h, if_true] using
      flushBatch_conserves sendOk { s with batch := s.batch ++ [e] }
  · simp only [List.length_append, List.length_singleton, h, if_false]
    by_cases ht : (s.batchTimer).isNone <;> simp [ht]

/-- Batches flushed over a run, concatenated, followed by the pending
batch, are exactly the prior pending batch followed by all added events
in insertion order: no reordering, duplication or loss. -/
theorem runBatch_conserves (sendOk : List ErrorData → Bool)
    (acts : List BatchAct) (s : State) :
    ((runBatch sendOk s acts).2.flatten) ++ (runBatch sendOk s acts).1.batch
      = s.batch ++ addsOf acts := by
  induction acts generalizing s with
  | nil => simp [runBatch, addsOf]
  | cons a rest ih =>
    cases a with
    | add t e =>
        have h1 := addToBatch_conserves sendOk t s e
        have h2 := ih (addToBatch sendOk t s e).1
        simp only [runBatch, addsOf, List.flatten_append, List.append_assoc] at *
        rw [h2, ← List.append_assoc, h1, List.append_assoc]
        simp
    | fire t =>
        by_cases h : s.batchTimer = some t
        · have h1 := flushBatch_conserves sendOk s
          have h2 := ih (fireBatchTimer sendOk s).1
          simp only [runBatch, h, if_true, addsOf, List.flatten_append,
            fireBatchTimer, List.append_assoc] at *
          rw [h2, ← List.append_assoc, h1]
        · simp only [runBatch, h, if_false, addsOf]
          exact ih s

/-- C3: for every sequence of adds, a flush happens exactly when the
pending count reaches 10 — the flush empties the batch and cancels the
timer — or when the 5000 ms timer started by the first addition to an
empty batch fires, flushing whatever is present and clearing the timer;
every flushed batch is exactly the events accumulated since the previous
flush, in insertion order (conservation over arbitrary runs). -/
theorem batch_accumulator_spec (sendOk : List ErrorData → Bool)
    (now : Nat) (s : State) (e : ErrorData) (acts : List BatchAct) :
    ((addToBatch sendOk now s e).2.1 =
        if BATCH_SIZE ≤ (s.batch ++ [e]).length then some (s.batch ++ [e])
        else none) ∧
    ((addToBatch sendOk now s e).1.batch =
        if BATCH_SIZE ≤ (s.batch ++ [e]).length then [] else s.batch ++ [e]) ∧
    ((addToBatch sendOk now s e).1.batchTimer =
        if BATCH_SIZE ≤ (s.batch ++ [e]).length then none
        else if s.batchTimer.isNone then some (now + BATCH_INTERVAL)
        else s.batchTimer) ∧
    ((fireBatchTimer sendOk s).2.1 =
        if s.batch.isEmpty then none else some s.batch) ∧
    ((fireBatchTimer sendOk s).1.batch = []) ∧
    ((fireBatchTimer sendOk s).1.batchTimer =
        if s.batch.isEmpty then s.batchTimer else none) ∧
    (((runBatch sendOk s acts).2.flatten) ++ (runBatch sendOk s acts).1.batch
        = s.batch ++ addsOf acts) := by
  have hfb : ∀ s' : State, s'.batch ≠ [] →
      (flushBatch sendOk s').2.1 = some s'.batch ∧
      (flushBatch sendOk s').1.batch = [] ∧
      (flushBatch sendOk s').1.batchTimer = none := by
    intro s' h
    have hne : s'.batch.isEmpty = false := by simp [List.isEmpty_iff, h]
    by_cases hs : sendOk s'.batch <;> simp [flushBatch, hne, hs]
  refine ⟨?_, ?_, ?_, ?_, ?_, ?_, runBatch_conserves sendOk acts s⟩
  · by_cases h : BATCH_SIZE ≤ s.batch.length + 1
    · have := (hfb { s with batch := s.batch ++ [e] } (by simp)).1
      simp only [addToBatch, List.length_append, List.length_singleton, h,
        if_true] at this ⊢
      exact this
    · simp only [addToBatch, List.length_append, List.length_singleton, h,
        if_false]
      by_cases ht : (s.batchTimer).isNone <;> simp [ht]
  · by_cases h : BATCH_SIZE ≤ s.batch.length + 1
    · have := (hfb { s with batch := s.batch ++ [e] } (by simp)).2.1
      simp only [addToBatch, List.length_append, List.length_singleton, h,
        if_true] at this ⊢
      exact this
    · simp only [addToBatch, List.length_append, List.length_singleton, h,
        if_false]
      by_cases ht : (s.batchTimer).isNone <;> simp [ht]
  · by_cases h : BATCH_SIZE ≤ s.batch.length + 1
    · have := (hfb { s with batch := s.batch ++ [e] } (by simp)).2.2
      simp only [addToBatch, List.length_append, List.length_singleton, h,
        if_true] at this ⊢
      exact this
    · simp only [addToBatch, List.length_append, List.length_singleton, h,
        if_false]
      by_cases ht : (s.batchTimer).isNone <;> simp [ht]
  · by_cases h : s.batch.isEmpty
    · simp [fireBatchTimer, flushBatch, h]
    · have hb : s.batch ≠ [] := by simpa [List.isEmpty_iff] using h
      simpa [fireBatchTimer, h] using (hfb s hb).1
  · by_cases h : s.batch.isEmpty
    · simp [List.isEmpty_iff] at h
      simp [fireBatchTimer, flushBatch, h]
    · have hb : s.batch ≠ [] := by simpa [List.isEmpty_iff] using h
      simpa [fireBatchTimer, h] using (hfb s hb).2.1
  · by_cases h : s.batch.isEmpty
    · simp [fireBatchTimer, flushBatch, h]
    · have hb : s.batch ≠ [] := by simpa [List.isEmpty_iff] using h
      simpa [fireBatchTimer, h] using (hfb s hb).2.2

/-- Folding adds over a trail of at most 30 entries keeps exactly the
most recent 30 entries of the combined sequence, in order. -/
theorem addBreadcrumb_foldl (l : List Breadcrumb) :
    ∀ bs : List Breadcrumb, bs.length ≤ BREADCRUMB_LIMIT →
      List.foldl addBreadcrumb bs l
        = (bs ++ l).drop ((bs ++ l).length - BREADCRUMB_LIMIT) := by
  induction l with
  | nil =>
      intro bs h
      simp [Nat.sub_eq_zero_of_le h]
  | cons b t ih =>
      intro bs h
      have hx : List.foldl addBreadcrumb bs (b :: t)
          = List.foldl addBreadcrumb (addBreadcrumb bs b) t := rfl
      rw [hx]
      by_cases hlen : bs.length + 1 ≤ BREADCRUMB_LIMIT
      · have hc : ¬ BREADCRUMB_LIMIT < (bs ++ [b]).length := by
          simp only [List.length_append, List.length_singleton]
          omega
        have hab : addBreadcrumb bs b = bs ++ [b] := by
          simp only [addBreadcrumb]
          rw [if_neg hc]
        rw [hab, ih _ (by simpa using hlen)]
        simp [List.append_assoc]
      · have h30 : bs.length = BREADCRUMB_LIMIT := by omega
        have hc : BREADCRUMB_LIMIT < (bs ++ [b]).length := by
          simp only [List.length_append, List.length_singleton]
          omega
        have hab : addBreadcrumb bs b = (bs ++ [b]).tail := by
          simp only [addBreadcrumb]
          rw [if_pos hc]
        have htl : (bs ++ [b]).tail.length ≤ BREADCRUMB_LIMIT := by
          simp only [List.length_tail, List.length_append, List.length_singleton]
          omega
        rw [hab, ih _ htl]
        have hlen1 : 1 ≤ (bs ++ [b]).length := by simp
        have h1 : (bs ++ [b]).tail ++ t = ((bs ++ [b]) ++ t).drop 1 := by
          rw [List.drop_append_of_le_length hlen1, List.drop_one]
        rw [h1, List.drop_drop]
        rw [show (bs ++ [b]) ++ t = bs ++ b :: t by simp]
        congr 1
        simp only [List.length_tail, List.length_append, List.length_singleton,
          List.length_cons, List.length_drop]
        omega

/-- Setting a key makes it present with that value. -/
theorem mdLookup_mdSet_self (m : Metadata) (k : String) (v : MetaVal) :
    mdLookup (mdSet m k v) k = some v := by
  induction m with
  | nil => simp [mdSet, mdLookup, List.find?]
  | cons p rest ih =>
      by_cases hp : p.1 == k
      · simp [mdSet, hp, mdLookup, List.find?]
      · simp only [mdSet, hp, Bool.false_eq_true, if_false]
        simp only [mdLookup, List.find?, hp] at ih ⊢
        exact ih

/-- Setting a different key leaves a key's lookup unchanged. -/
theorem mdLookup_mdSet_other (m : Metadata) (k k' : String) (v : MetaVal)
    (h : k' ≠ k) :
    mdLookup (mdSet m k' v) k = mdLookup m k := by
  have hk : (k' == k) = false := by simpa using h
  induction m with
  | nil => simp [mdSet, mdLookup, List.find?, hk]
  | cons p rest ih =>
      by_cases hp : p.1 == k'
      · have hpk : (p.1 == k) = false := by
          have hpv : p.1 = k' := by simpa using hp
          simpa [hpv] using h
        simp [mdSet, hp, mdLookup, List.find?, hk, hpk]
      · simp only [mdSet, hp, Bool.false_eq_true, if_false]
        by_cases hq : p.1 == k
        · simp [mdLookup, List.find?, hq]
        · simp only [mdLookup, List.find?, hq] at ih ⊢
          exact ih

/-- The capture metadata merge stores the breadcrumb snapshot under the
"breadcrumbs" key. -/
theorem mergeCaptureMetadata_breadcrumbs (s : State) (m : Metadata) :
    mdLookup (mergeCaptureMetadata s m) "breadcrumbs"
      = some (.crumbs s.breadcrumbs) := by
  unfold mergeCaptureMetadata
  rw [mdLookup_mdSet_other _ _ _ _ (by decide),
      mdLookup_mdSet_other _ _ _ _ (by decide),
      mdLookup_mdSet_other _ _ _ _ (by decide),
      mdLookup_mdSet_self]

/-- Normal capture path: when `beforeSend` accepts and no analytics hook
is installed, `handleError` is the attachment step followed by the
metadata merge and the hand-off to the batch accumulator. -/
theorem handleError_no_hook (cfg : Config) (sendOk : List ErrorData → Bool)
    (now : Nat) (s : State) (ev p : ErrorData)
    (hbs : cfg.beforeSend { ev with type := some "error" } = .ok (some p))
    (hhook : cfg.onErrorCaptured = none) :
    handleError cfg sendOk now s ev
      = ((addToBatch sendOk now (attachStep cfg now s ev).1
            (capturedEvent cfg now s ev)).1,
         (attachStep cfg now s ev).2.2
           ++ (addToBatch sendOk now (attachStep cfg now s ev).1
                 (capturedEvent cfg now s ev)).2.2) := by
  unfold handleError handleErrorE capturedEvent
  rw [hbs, hhook]

/-- The attachment step never touches the batch, the queue or its
storage mirror. -/
theorem attachStep_preserves (cfg : Config) (now : Nat) (s : State)
    (ev : ErrorData) :
    (attachStep cfg now s ev).1.batch = s.batch ∧
    (attachStep cfg now s ev).1.batchTimer = s.batchTimer ∧
    (attachStep cfg now s ev).1.errorQueue = s.errorQueue ∧
    (attachStep cfg now s ev).1.storage = s.storage := by
  unfold attachStep
  by_cases h : cfg.enableScreenRecording && !s.recordingEvents.isEmpty
  · by_cases hl : s.logPatched <;> simp [h, hl]
  · simp [h]

/-- C6: the breadcrumb trail never exceeds 30 entries — after the N
additions of any sequence it holds exactly the most recent
min(N,30) of them, in insertion order (the oldest evicted first) — and
the snapshot stored into a captured event's metadata under
"breadcrumbs" is the trail's value at capture time (a copy by value:
subsequent trail mutation cannot alter it). -/
theorem breadcrumb_trail_spec (l : List Breadcrumb)
    (sendOk : List ErrorData → Bool) (now : Nat) (s : State)
    (ev : ErrorData) (hlen : s.batch.length + 1 < BATCH_SIZE) :
    (List.foldl addBreadcrumb [] l).length = min l.length BREADCRUMB_LIMIT ∧
    List.foldl addBreadcrumb [] l = l.drop (l.length - BREADCRUMB_LIMIT) ∧
    (handleError cfgNoRec sendOk now s ev).1.batch
      = s.batch ++ [{ ev with metadata := mergeCaptureMetadata s ev.metadata }] ∧
    mdLookup (mergeCaptureMetadata s ev.metadata) "breadcrumbs"
      = some (.crumbs s.breadcrumbs) := by
  have hfold := addBreadcrumb_foldl l [] (by simp)
  refine ⟨?_, ?_, ?_, mergeCaptureMetadata_breadcrumbs s ev.metadata⟩
  · rw [hfold]
    simp only [List.nil_append, List.length_drop]
    omega
  · simpa using hfold
  · rw [handleError_no_hook cfgNoRec sendOk now s ev
      { ev with type := some "error" } rfl rfl]
    have hatt : attachStep cfgNoRec now s ev = (s, ev, []) := by
      unfold attachStep cfgNoRec
      simp
    have hce : capturedEvent cfgNoRec now s ev
        = { ev with metadata := mergeCaptureMetadata s ev.metadata } := by
      unfold capturedEvent
      rw [hatt]
    rw [hatt, hce]
    simp only [addToBatch]
    have hc : ¬ BATCH_SIZE ≤ (s.batch
        ++ [{ ev with metadata := mergeCaptureMetadata s ev.metadata }]).length := by
      simp only [List.length_append, List.length_singleton]
      omega
    rw [if_neg hc]
    by_cases ht : (s.batchTimer).isNone <;> simp [ht]

/-- Witness for C6 at a concrete trail and capture. -/
theorem breadcrumb_trail_witness :
    (List.foldl addBreadcrumb []
        [⟨"ui", "click", none, 1⟩, ⟨"ui", "click", none, 2⟩]).length
      = min 2 BREADCRUMB_LIMIT ∧
    mdLookup (mergeCaptureMetadata sInit evSample.metadata) "breadcrumbs"
      = some (.crumbs sInit.breadcrumbs) := by
  have h := breadcrumb_trail_spec
    [⟨"ui", "click", none, 1⟩, ⟨"ui", "click", none, 2⟩]
    (fun _ => true) 0 sInit evSample (by decide)
  exact ⟨h.1, h.2.2.2⟩

/-- C2 (code defect evaluated): `handleError` checks the `beforeSend`
result only for null and then continues with the untransformed input
event, so a metadata field layered on by `setContext` is absent from the
event handed to the batch accumulator; the null branch does discard the
event with no state change, no hook firing and no batch or queue
activity. -/
theorem beforeSend_transform_discarded :
    ((handleError cfgCtx (fun _ => true) 0 sInit evSample).1.batch.head?.map
        (fun e => mdLookup e.metadata "ctx")) = some none ∧
    handleError cfgNull (fun _ => true) 0 sInit evSample = (sInit, []) := by
  exact ⟨rfl, rfl⟩

/-- C4 (code defect evaluated): when a frame arrives more than
`maxRecordingDuration` after the first buffered frame, `restartRecording`
stops the recorder but its `startScreenRecording` call returns
immediately because `isRecording` is still true — the buffer is not
cleared, no fresh recording starts, and every later frame is dropped:
the window does not roll. -/
theorem restartRecording_never_restarts :
    sRecOverrun.recorderActive = false ∧
    sRecOverrun.isRecording = true ∧
    sRecOverrun.recordingEvents = [frameA, frameB] ∧
    emitFrame {} 50000 frameA sRecOverrun = sRecOverrun := by
  exact ⟨rfl, rfl, rfl, rfl⟩

/-- C5 counterexample: the recording snapshot attached by `handleError`
is the raw frame buffer; the Redaction Filter is never applied to it,
although the configuration demands redaction and the spec-mandated
attachment (`attachRecordingSpec`) differs on this DOM-shaped frame. -/
theorem recording_attached_unredacted_cex :
    ((handleError cfgInput (fun _ => true) 0 sWithFrame evSample).1.batch.head?.map
        (fun e => e.screenRecording)) = some (some [frameSecret]) ∧
    attachRecordingSpec cfgInput [frameSecret] ≠ [frameSecret] := by
  refine ⟨rfl, ?_⟩
  have h1 : redactDom cfgInput frameSecret.data
      = .wellFormed (.elem "html" ""
          [.elem "body" "" [.elem "input" "[REDACTED]" []]]) := by
    simp [frameSecret, redactDom, cfgInput, isBrowser, parseHtml, redactSel,
      redactSelList, isInputLike]
  have h2 : attachRecordingSpec cfgInput [frameSecret]
      = [{ frameSecret with data := redactDom cfgInput frameSecret.data }] := by
    simp [attachRecordingSpec]
  rw [h2, h1]
  intro h
  have hhead := List.head_eq_of_cons_eq h
  have h3 : HtmlString.wellFormed (.elem "html" ""
        [.elem "body" "" [.elem "input" "[REDACTED]" []]])
      = frameSecret.data := congrArg Frame.data hhead
  rw [frameSecret] at h3
  injection h3 with h4
  injection h4 with _ _ h5
  injection h5 with h6
  injection h6 with _ _ h7
  injection h7 with h8
  injection h8 with _ h9
  exact absurd h9 (by decide)

/-- C5 amended: when recording is enabled and frames exist, the event
handed onward carries the raw serialized frame buffer as its recording
payload, with no redaction applied on the capture path. -/
theorem recording_attached_raw (cfg : Config)
    (sendOk : List ErrorData → Bool) (now : Nat) (s : State)
    (ev p : ErrorData)
    (hbs : cfg.beforeSend { ev with type := some "error" } = .ok (some p))
    (hhook : cfg.onErrorCaptured = none)
    (hrec : cfg.enableScreenRecording = true)
    (hfr : s.recordingEvents ≠ [])
    (hlen : s.batch.length + 1 < BATCH_SIZE) :
    (handleError cfg sendOk now s ev).1.batch.getLast?
      = some (capturedEvent cfg now s ev) ∧
    (capturedEvent cfg now s ev).screenRecording = some s.recordingEvents := by
  have hne : s.recordingEvents.isEmpty = false := by
    simp [List.isEmpty_iff, hfr]
  constructor
  · rw [handleError_no_hook cfg sendOk now s ev p hbs hhook]
    have hp := attachStep_preserves cfg now s ev
    simp only [addToBatch, hp.1]
    have hc : ¬ BATCH_SIZE ≤ (s.batch ++ [capturedEvent cfg now s ev]).length := by
      simp only [List.length_append, List.length_singleton]
      omega
    rw [if_neg hc]
    by_cases ht : ((attachStep cfg now s ev).1.batchTimer).isNone <;>
      simp [ht, hp.1, List.getLast?_concat]
  · unfold capturedEvent attachStep
    simp [hrec, hne]

/-- Witness for the amended C5 at a concrete state with one frame. -/
theorem recording_attached_raw_witness :
    (handleError {} (fun _ => true) 0 sWithFrame evSample).1.batch.getLast?
      = some (capturedEvent {} 0 sWithFrame evSample) ∧
    (capturedEvent {} 0 sWithFrame evSample).screenRecording
      = some sWithFrame.recordingEvents := by
  exact recording_attached_raw {} (fun _ => true) 0 sWithFrame evSample
    { evSample with type := some "error" } rfl rfl rfl
    (by simp [sWithFrame, sInit]) (by decide)

/-- A throwing analytics hook aborts the `try` block with the state and
the mutated event as they stood at the throw. -/
theorem handleErrorE_hook_throws (cfg : Config)
    (sendOk : List ErrorData → Bool) (now : Nat) (s : State)
    (ev p : ErrorData) (hook : ErrorData → Except Unit Unit)
    (hbs : cfg.beforeSend { ev with type := some "error" } = .ok (some p))
    (hhook : cfg.onErrorCaptured = some hook)
    (hthrow : ∀ e, hook e = .error ()) :
    handleErrorE cfg sendOk now s ev
      = .error ((attachStep cfg now s ev).1, capturedEvent cfg now s ev) := by
  unfold handleErrorE capturedEvent
  rw [hbs, hhook]
  simp [hthrow]

/-- C8: when a post-transform step (here the analytics hook) throws, the
event is shunted directly into the persistent delivery queue and its
storage mirror, the batch accumulator is bypassed (batch unchanged), a
diagnostic is emitted, and `handleError` returns normally — no exception
escapes the capture entry points, which are plain wrappers around it. -/
theorem capture_failure_shunts_to_queue (cfg : Config)
    (sendOk : List ErrorData → Bool) (now : Nat) (s : State)
    (ev p : ErrorData) (hook : ErrorData → Except Unit Unit)
    (hbs : cfg.beforeSend { ev with type := some "error" } = .ok (some p))
    (hhook : cfg.onErrorCaptured = some hook)
    (hthrow : ∀ e, hook e = .error ()) :
    (handleError cfg sendOk now s ev).1.batch = s.batch ∧
    (handleError cfg sendOk now s ev).1.errorQueue
      = s.errorQueue ++ [capturedEvent cfg now s ev] ∧
    (handleError cfg sendOk now s ev).1.storage
      = s.errorQueue ++ [capturedEvent cfg now s ev] ∧
    (handleError cfg sendOk now s ev).2
      = ["ErrorWatch: Failed to queue error for batch"] := by
  have hp := attachStep_preserves cfg now s ev
  unfold handleError
  rw [handleErrorE_hook_throws cfg sendOk now s ev p hook hbs hhook hthrow]
  simp [queueError, hp.1, hp.2.2.1]

/-- Witness for C8 at a concrete state and a hook that always throws. -/
theorem capture_failure_witness :
    (handleError cfgThrow (fun _ => true) 0 sInit evSample).1.batch = [] ∧
    (handleError cfgThrow (fun _ => true) 0 sInit evSample).1.errorQueue
      = [capturedEvent cfgThrow 0 sInit evSample] ∧
    (handleError cfgThrow (fun _ => true) 0 sInit evSample).2
      = ["ErrorWatch: Failed to queue error for batch"] := by
  have h := capture_failure_shunts_to_queue cfgThrow (fun _ => true) 0 sInit
    evSample { evSample with type := some "error" } (fun _ => .error ())
    rfl rfl (fun _ => rfl)
  refine ⟨?_, ?_, h.2.2.2⟩
  · rw [h.1]
    rfl
  · rw [h.2.1]
    rfl

mutual

/-- A selector with no matching element leaves a document unchanged. -/
theorem redactSel_no_match (sel : String) (d : Dom)
    (h : hasTag sel d = false) : redactSel sel d = d := by
  cases d with
  | text s => rw [redactSel]
  | elem tag v children =>
      rw [hasTag] at h
      simp only [Bool.or_eq_false_iff] at h
      rw [redactSel]
      simp only [h.1, Bool.false_eq_true, if_false]
      rw [redactSelList_no_match sel children h.2]
termination_by sizeOf d

/-- A selector with no matching element leaves a child list unchanged. -/
theorem redactSelList_no_match (sel : String) (ds : List Dom)
    (h : hasTagList sel ds = false) : redactSelList sel ds = ds := by
  cases ds with
  | nil => rw [redactSelList]
  | cons d rest =>
      rw [hasTagList] at h
      simp only [Bool.or_eq_false_iff] at h
      rw [redactSelList, redactSel_no_match sel d h.1,
        redactSelList_no_match sel rest h.2]
termination_by sizeOf ds

end

/-- C9 amended: `redactDom` returns its input unchanged when `allowPII`
is set; with an empty selector list (and PII disallowed) it reparses and
reserializes the snapshot — the parsed document untouched, but not the
input byte-for-byte; it is total (the lenient parser never fails, a
malformed fragment yields the error-corrected document, not the original
string); elements matched by no selector are untouched, and a selector
matching an input field replaces exactly that field's value with the
redaction marker. -/
theorem redactDom_amended_spec (cfg : Config) (hs : HtmlString)
    (sel : String) (d : Dom) (hnm : hasTag sel d = false) :
    (cfg.allowPII = true → redactDom cfg hs = hs) ∧
    (cfg.allowPII = false → cfg.redactSelectors = [] →
        redactDom cfg hs = .wellFormed (parseHtml hs)) ∧
    redactSel sel d = d ∧
    redactDom cfgInput
        (.wellFormed (.elem "html" ""
          [.elem "body" "" [.elem "input" "secret" [], .text "keep"]]))
      = .wellFormed (.elem "html" ""
          [.elem "body" "" [.elem "input" "[REDACTED]" [], .text "keep"]]) := by
  refine ⟨?_, ?_, redactSel_no_match sel d hnm, ?_⟩
  · intro h
    simp [redactDom, h]
  · intro h1 h2
    simp [redactDom, h1, h2, isBrowser]
  · simp [redactDom, cfgInput, isBrowser, parseHtml, redactSel,
      redactSelList, isInputLike]

/-- Witness for the amended C9 at concrete inputs. -/
theorem redactDom_amended_witness :
    redactDom { allowPII := true } (.malformedFragment "hi")
      = .malformedFragment "hi" ∧
    redactSel "input" (.text "x") = .text "x" := by
  have h := redactDom_amended_spec { allowPII := true }
    (.malformedFragment "hi") "input" (.text "x") (by rw [hasTag])
  exact ⟨h.1 rfl, h.2.2.1⟩

/-- C9 counterexample: with the constructor defaults — PII disallowed
and an empty selector list — a bare snapshot string is reparsed and
reserialized, so the output differs from the input, refuting the
byte-for-byte clause for the empty selector list. -/
theorem redactDom_empty_selectors_cex :
    cfgEmptySel.allowPII = false ∧ cfgEmptySel.redactSelectors = [] ∧
    redactDom cfgEmptySel (.malformedFragment "hi")
      ≠ .malformedFragment "hi" := by
  refine ⟨rfl, rfl, ?_⟩
  simp [redactDom, cfgEmptySel, isBrowser, parseHtml, htmlWrap]

/-- Component-wise description of a flush: the batch always ends empty,
the timer survives only an empty (no-op) flush, and every field
unrelated to batching, queueing and persistence is untouched. -/
theorem flushBatch_fields (sendOk : List ErrorData → Bool) (s : State) :
    (flushBatch sendOk s).1.batch = [] ∧
    (flushBatch sendOk s).1.batchTimer
      = (if s.batch.isEmpty then s.batchTimer else none) ∧
    (flushBatch sendOk s).1.isRecording = s.isRecording ∧
    (flushBatch sendOk s).1.recordingEvents = s.recordingEvents ∧
    (flushBatch sendOk s).1.recorderActive = s.recorderActive ∧
    (flushBatch sendOk s).1.errorHandlersAttached = s.errorHandlersAttached ∧
    (flushBatch sendOk s).1.consolePatched = s.consolePatched ∧
    (flushBatch sendOk s).1.logPatched = s.logPatched := by
  by_cases h : s.batch.isEmpty
  · have hb : s.batch = [] := by simpa [List.isEmpty_iff] using h
    simp [flushBatch, h, hb]
  · by_cases hs : sendOk s.batch <;> simp [flushBatch, h, hs]

/-- Component-wise description of `destroy`: batching and recording
state is reset, everything else — in particular the interception flags —
is preserved. -/
theorem destroy_fields (sendOk : List ErrorData → Bool) (s : State) :
    (destroy sendOk s).batch = [] ∧
    (destroy sendOk s).batchTimer = none ∧
    (destroy sendOk s).isRecording = false ∧
    (destroy sendOk s).recordingEvents = [] ∧
    (destroy sendOk s).recorderActive
      = (if s.hasStopHandle then false else s.recorderActive) ∧
    (destroy sendOk s).errorHandlersAttached = s.errorHandlersAttached ∧
    (destroy sendOk s).consolePatched = s.consolePatched ∧
    (destroy sendOk s).logPatched = s.logPatched := by
  by_cases hh : s.hasStopHandle <;>
  by_cases hb : s.batch.isEmpty <;>
  by_cases hs : sendOk s.batch <;>
  simp_all [destroy, flushBatch, List.isEmpty_iff]

/-- C10: `destroy()` stops the recorder, clears the frame buffer,
cancels the batch timer and flushes the pending batch, but leaves the
window error/unhandledrejection listeners attached and the console
patches installed, so a window error dispatched after `destroy()` is
still intercepted, captured and batched by the destroyed instance. -/
theorem destroy_keeps_interception (sendOk sendOk2 : List ErrorData → Bool)
    (s : State) (now : Nat) (msg url ua : String)
    (hattach : s.errorHandlersAttached = true) :
    (destroy sendOk s).errorHandlersAttached = true ∧
    (destroy sendOk s).consolePatched = s.consolePatched ∧
    (destroy sendOk s).logPatched = s.logPatched ∧
    (destroy sendOk s).isRecording = false ∧
    (destroy sendOk s).recordingEvents = [] ∧
    (s.hasStopHandle = true → (destroy sendOk s).recorderActive = false) ∧
    (destroy sendOk s).batchTimer = none ∧
    (destroy sendOk s).batch = [] ∧
    (∃ e, (dispatchWindowError cfgNoRec sendOk2 now (destroy sendOk s)
          msg none url none none ua).1.batch = [e] ∧ e.message = msg) := by
  obtain ⟨h1, h2, h3, h4, h5, h6, h7, h8⟩ := destroy_fields sendOk s
  have hA : (destroy sendOk s).errorHandlersAttached = true := by
    rw [h6, hattach]
  refine ⟨hA, h7, h8, h3, h4, ?_, h2, h1, ?_⟩
  · intro hst
    rw [h5, if_pos hst]
  · unfold dispatchWindowError
    rw [hA]
    simp only [if_true]
    rw [handleError_no_hook cfgNoRec sendOk2 now (destroy sendOk s)
      { message := msg, stack := none, url := url, line := none,
        column := none, userAgent := ua, timestamp := now,
        severity := .error }
      { message := msg, stack := none, url := url, line := none,
        column := none, userAgent := ua, timestamp := now,
        severity := .error, type := some "error" } rfl rfl]
    have hatt : attachStep cfgNoRec now (destroy sendOk s)
        { message := msg, stack := none, url := url, line := none,
          column := none, userAgent := ua, timestamp := now,
          severity := .error }
        = (destroy sendOk s,
           { message := msg, stack := none, url := url, line := none,
             column := none, userAgent := ua, timestamp := now,
             severity := .error }, []) := by
      unfold attachStep cfgNoRec
      simp
    refine ⟨capturedEvent cfgNoRec now (destroy sendOk s)
      { message := msg, stack := none, url := url, line := none,
        column := none, userAgent := ua, timestamp := now,
        severity := .error }, ?_, ?_⟩
    · simp only [addToBatch, hatt]
      rw [h1]
      have hc : ¬ BATCH_SIZE ≤ ([] ++ [capturedEvent cfgNoRec now (destroy sendOk s)
          { message := msg, stack := none, url := url, line := none,
            column := none, userAgent := ua, timestamp := now,
            severity := .error }]).length := by
        simp [BATCH_SIZE]
      rw [if_neg hc]
      by_cases ht : ((destroy sendOk s).batchTimer).isNone <;> simp [ht]
    · unfold capturedEvent
      rw [hatt]

/-- Witness for C10 at a concrete initialised instance. -/
theorem destroy_keeps_interception_witness :
    (destroy (fun _ => true) sInit).errorHandlersAttached = true ∧
    (∃ e, (dispatchWindowError cfgNoRec (fun _ => true) 5
        (destroy (fun _ => true) sInit) "late" none "u" none none
        "ua").1.batch = [e] ∧ e.message = "late") := by
  have h := destroy_keeps_interception (fun _ => true) (fun _ => true)
    sInit 5 "late" "u" "ua" rfl
  exact ⟨h.1, h.2.2.2.2.2.2.2.2⟩

end ErrorWatch
